import Mathlib

/-!
Shallow embedding of `src/timelogger.py` (class `WorkLogger`) for checking the
natural-language specification of the repository against the code.

Modelling conventions, fixed once for the whole file:

* A time of day is its number of minutes since midnight.  A string accepted by
  Python's `strptime(_, "%H:%M")` denotes exactly one value in `[0, 1440)`;
  interactive time inputs are therefore modelled by `TimeInput`: the user
  pressed Enter (`blank`), typed an unparseable string (`invalid`), or typed a
  string parsing to `t` minutes (`given t`).
* A calendar date is a day index (`Nat`) with day `0` a Monday, so `d % 7` is
  Python's `date.weekday()` and consecutive indices are consecutive days; the
  `"%Y-%m-%d"` key of a date is the index itself.
* Python floats are modelled as `ℚ`.  Every quantity the program computes from
  `HH:MM` timestamps is an exact multiple of a minute, so `float` arithmetic in
  the source is exact and `ℚ` is a faithful model; `round(x, 2)` is `round2`
  and `int(x)` is `pyInt` below.
* The JSON store `self.data` is modelled by `Store`: the `settings` record
  (its single field `lunch_break_minutes`) together with the insertion-ordered
  date-to-entry mapping, an association list with unique keys by construction.
  A Python entry dict is a `DayEntry`; a key missing from the dict is the field
  being `none`, and the empty dict `{}` (falsy in `not self.data[date_str]`)
  is the entry with all fields `none`.
* `save_data` / `load_data` move the store unchanged between memory and disk;
  persistence is the identity on the modelled state and is not represented.
  `print` calls are not represented; the outcome a user is shown is modelled
  by each operation's result value.
-/

namespace Timelogger

/-- Python `int(q)` on a number: truncation toward zero. -/
def pyInt (q : ℚ) : Int := if q < 0 then ⌈q⌉ else ⌊q⌋

/-- Python `round(q, 2)`.  Python rounds ties to even, this rounds ties up;
the two agree on every value this program rounds, because the program only
rounds quantities `w / 60` with `w` an integer number of minutes, and
`100 * w / 60 = 5 * w / 3` has denominator `1` or `3`, never landing on a
half-integer tie. -/
def round2 (q : ℚ) : ℚ := ((⌊100 * q + 1 / 2⌋ : Int) : ℚ) / 100

/-- One date's entry dict.  Fields mirror the Python dict keys `'start'`,
`'end'`, `'hours_worked'`, `'total_minutes'` (`end` is a Lean keyword, so the
`'end'` key is the field `endT`); `none` is the key being absent. -/
structure DayEntry where
  start : Option Nat := none
  endT : Option Nat := none
  hours_worked : Option ℚ := none
  total_minutes : Option Int := none
deriving DecidableEq

/-- The empty Python dict `{}`, which is falsy. -/
def emptyEntry : DayEntry := {}

/-- The store `self.data`: the `settings` record plus the date-keyed entries,
in dict insertion order. -/
structure Store where
  lunch_break_minutes : Int
  entries : List (Nat × DayEntry)
deriving DecidableEq

/-- Dict lookup `self.data[date_str]` on the date-keyed part. -/
def findPairs : List (Nat × DayEntry) → Nat → Option DayEntry
  | [], _ => none
  | (d', e') :: rest, d => if d' = d then some e' else findPairs rest d

/-- Dict write `self.data[date_str] = entry`: overwrite in place if the key
exists, else append (Python dicts keep insertion order). -/
def upsert : List (Nat × DayEntry) → Nat → DayEntry → List (Nat × DayEntry)
  | [], d, e => [(d, e)]
  | (d', e') :: rest, d, e =>
    if d' = d then (d, e) :: rest else (d', e') :: upsert rest d e

def Store.find (st : Store) (d : Nat) : Option DayEntry :=
  findPairs st.entries d

def Store.setEntry (st : Store) (d : Nat) (e : DayEntry) : Store :=
  { st with entries := upsert st.entries d e }

/-- Dict deletion `del self.data[date_str]`. -/
def Store.erase (st : Store) (d : Nat) : Store :=
  { st with entries := st.entries.filter (fun p => p.1 ≠ d) }

/-- An interactive `HH:MM` prompt answer: Enter, an unparseable string, or a
string parsing to `t` minutes (`t < 1440` for every parseable string). -/
inductive TimeInput where
  | blank
  | invalid
  | given (t : Nat)
deriving DecidableEq

/-- An interactive `YYYY-MM-DD` prompt answer. -/
inductive DateInput where
  | blank
  | invalid
  | given (d : Nat)
deriving DecidableEq

/-- `WorkLogger.is_first_monday_input` (timelogger.py:153-164): today is a
Monday and today's entry is absent, or present but falsy (the empty dict). -/
def is_first_monday_input (st : Store) (today : Nat) : Bool :=
  if today % 7 ≠ 0 then false
  else
    match st.find today with
    | none => true
    | some e => decide (e = emptyEntry)

/-- `WorkLogger.clear_previous_entries` (timelogger.py:146-151): drop every
date entry, keep the settings record, persist. -/
def clear_previous_entries (st : Store) : Store :=
  { st with entries := [] }

/-- The inline worked-time computation shared verbatim by
`WorkLogger.log_end` (timelogger.py:408-422),
`WorkLogger.recalculate_all_entries` (timelogger.py:124-136) and
`WorkLogger.edit_past_day` (timelogger.py:623-637): put both `HH:MM` stamps on
the same date, move the end to the next day when it is wall-clock earlier than
the start, take the span in minutes, subtract the lunch break.  Returns the
pair stored as (`hours_worked`, `total_minutes`); `int(worked_minutes)` is
exact because the operand is a whole number of minutes. -/
def compute_worked (startMin endMin : Nat) (lunch : Int) : ℚ × Int :=
  let rawMinutes : Int :=
    if endMin < startMin then (endMin : Int) + 1440 - startMin
    else (endMin : Int) - startMin
  let worked_minutes : Int := rawMinutes - lunch
  (round2 ((worked_minutes : ℚ) / 60), worked_minutes)

/-- `WorkLogger.log_start` (timelogger.py:349-376).  `today`/`nowMin` are the
single per-operation clock sample (`datetime.date.today()` /
`datetime.datetime.now()`); a typed time is re-dated onto today, so the
resolved date is always `today`.  Returns the new store and the function's
boolean result (`False` on a parse failure). -/
def log_start (st : Store) (today nowMin : Nat) (input : TimeInput) :
    Store × Bool :=
  let st := if is_first_monday_input st today then clear_previous_entries st else st
  match input with
  | .invalid => (st, false)
  | .blank =>
    let e := (st.find today).getD emptyEntry
    (st.setEntry today { e with start := some nowMin }, true)
  | .given t =>
    let e := (st.find today).getD emptyEntry
    (st.setEntry today { e with start := some t }, true)

/-- Result of `WorkLogger.log_end`: success, an unparseable time string, or no
start recorded for the resolved date. -/
inductive LogEndResult where
  | ok
  | invalidTime
  | missingStart
deriving DecidableEq

/-- The body of `WorkLogger.log_end` after the parse (timelogger.py:396-424),
at resolved end time `t`.  If the date has no entry, the code first writes the
empty dict for it and then fails on the missing `start`, so the failure leaves
that empty entry behind; with an entry that lacks `start` it fails leaving the
store as is; otherwise it stores the `end` key and both derived fields. -/
def log_end_at (st : Store) (today t : Nat) : Store × LogEndResult :=
  match st.find today with
  | none => (st.setEntry today emptyEntry, .missingStart)
  | some e =>
    match e.start with
    | none => (st, .missingStart)
    | some s =>
      let (h, w) := compute_worked s t st.lunch_break_minutes
      (st.setEntry today
        { e with endT := some t, hours_worked := some h, total_minutes := some w },
       .ok)

/-- `WorkLogger.log_end` (timelogger.py:378-443).  The first-Monday clearing
runs before anything else — in particular before the parse and before the
missing-start check. -/
def log_end (st : Store) (today nowMin : Nat) (input : TimeInput) :
    Store × LogEndResult :=
  let st := if is_first_monday_input st today then clear_previous_entries st else st
  match input with
  | .invalid => (st, .invalidTime)
  | .blank => log_end_at st today nowMin
  | .given t => log_end_at st today t

/-- `WorkLogger.recalculate_all_entries` (timelogger.py:113-144) on a single
entry: entries having both `start` and `end` get both derived fields
recomputed with the current lunch setting, all other entries are left alone.
(The `except ValueError: continue` arm is unreachable here: every stored stamp
was validated when written, which the minutes-since-midnight model makes
intrinsic.) -/
def recalcEntry (lunch : Int) (e : DayEntry) : DayEntry :=
  match e.start, e.endT with
  | some s, some t =>
    let (h, w) := compute_worked s t lunch
    { e with hours_worked := some h, total_minutes := some w }
  | _, _ => e

/-- `WorkLogger.recalculate_all_entries` (timelogger.py:113-144): iterate the
whole store, skipping the `settings` key (outside `entries` in this model). -/
def recalculate_all_entries (st : Store) : Store :=
  { st with
    entries := st.entries.map (fun p => (p.1, recalcEntry st.lunch_break_minutes p.2)) }

/-- `WorkLogger.set_lunch_break_minutes` (timelogger.py:45-48). -/
def set_lunch_break_minutes (st : Store) (minutes : Int) : Store :=
  { st with lunch_break_minutes := minutes }

/-- `WorkLogger.configure_lunch_break` (timelogger.py:50-111) after the menu
dialogue: every path that changes the setting (presets 0/15/30/45/60 or a
custom value validated to `[0, 120]`) stores the new value and reruns the
full-store recalculation; every other path leaves the store untouched. -/
def configure_lunch_break (st : Store) (minutes : Int) : Store :=
  if 0 ≤ minutes ∧ minutes ≤ 120 then
    recalculate_all_entries (set_lunch_break_minutes st minutes)
  else st

/-- `WorkLogger.get_week_start` (timelogger.py:166-168):
`date - timedelta(days=date.weekday())`, i.e. the Monday of `d`'s week. -/
def get_week_start (d : Nat) : Nat := d - d % 7

/-- One iteration of the loop in `WorkLogger.get_weekly_hours`
(timelogger.py:179-187): add `entry.get('hours_worked', 0)` to the running
total whenever day `i` of the week has an entry. -/
def weeklyStep (st : Store) (target : Nat) (total_hours : ℚ) (i : Nat) : ℚ :=
  match st.find (get_week_start target + i) with
  | some e => total_hours + e.hours_worked.getD 0
  | none => total_hours

/-- `WorkLogger.get_weekly_hours` (timelogger.py:170-189), keeping only the
total (the accompanying list of the week's date strings is derived data the
claims never mention): walk the 7 dates from the week's Monday. -/
def get_weekly_hours (st : Store) (target : Nat) : ℚ :=
  (List.range 7).foldl (weeklyStep st target) 0

/-- The dict `WorkLogger.get_current_work_time` returns (timelogger.py:269-292),
field for field.  `start_time` keeps the raw stamp; the two `time_to_leave`
fields are clock times (`strftime("%H:%M")` of a datetime, i.e. minutes since
midnight after wrapping), `none` when the source stores `None`. -/
structure WorkInfo where
  start_time : Nat
  elapsed_hours : Int
  elapsed_minutes : Int
  work_hours : Int
  work_minutes : Int
  total_work_minutes : Int
  weekly_hours : ℚ
  current_day_hours : ℚ
  remaining_weekly_hours : ℚ
  lunch_minutes : Int
  time_to_leave_7h : Option Nat
  hours_until_7h : Int
  mins_until_7h : Int
  daily_target_reached : Bool
  show_35h_target : Bool
  time_to_leave_35h : Option Nat
  hours_until_35h : Int
  mins_until_35h : Int
  weekly_target_reached : Bool
  minutes_needed_for_35h : Int
deriving DecidableEq

/-- `WorkLogger.get_current_work_time` (timelogger.py:191-294).  `today` and
`nowMin` are the operation's clock sample (today's date and the current minute
of that day; the stored seconds are irrelevant because `int(seconds/60)` of a
whole-minute difference is exact).  Python `//` and `%` are floor division and
floor modulus, `Int.fdiv` / `Int.fmod` here.  Returns `none` exactly when no
active session exists: no entry for today, no `start`, or an `end` already
logged.  (The `except ValueError` arm is unreachable: stored stamps are
valid by construction.) -/
def get_current_work_time (st : Store) (today nowMin : Nat) : Option WorkInfo :=
  match st.find today with
  | none => none
  | some e =>
    match e.start with
    | none => none
    | some s =>
      match e.endT with
      | some _ => none
      | none =>
        let total_minutes : Int := (nowMin : Int) - (s : Int)
        let hours := total_minutes.fdiv 60
        let minutes := total_minutes.fmod 60
        let lunch_minutes := st.lunch_break_minutes
        let work_minutes := total_minutes - (if total_minutes > 240 then lunch_minutes else 0)
        let work_hours := work_minutes.fdiv 60
        let work_mins_remainder := work_minutes.fmod 60
        let weekly_hours := get_weekly_hours st today
        let current_day_hours : ℚ := (work_minutes : ℚ) / 60
        let target_total_minutes : Int := 420 + lunch_minutes
        let minutes_until_7h := target_total_minutes - total_minutes
        let tl7 : Option Nat × Int × Int :=
          if minutes_until_7h > 0 then
            (some (((s : Int) + target_total_minutes).fmod 1440).toNat,
             minutes_until_7h.fdiv 60, minutes_until_7h.fmod 60)
          else (none, 0, 0)
        let remaining_weekly_hours : ℚ := 35 - weekly_hours
        let remaining_weekly_minutes := remaining_weekly_hours * 60
        let minutes_needed_for_35h : ℚ := remaining_weekly_minutes - (work_minutes : ℚ)
        let show_35h_target := decide (weekly_hours > 27)
        let minutes_needed_final : ℚ :=
          if show_35h_target = true ∧ minutes_needed_for_35h > 0 then
            if total_minutes ≤ 240 then minutes_needed_for_35h + (lunch_minutes : ℚ)
            else minutes_needed_for_35h
          else minutes_needed_for_35h
        let tl35 : Option Nat × Int × Int :=
          if show_35h_target = true ∧ minutes_needed_for_35h > 0 then
            let total_minutes_for_35h := (total_minutes : ℚ) + minutes_needed_final
            (some (⌊(s : ℚ) + total_minutes_for_35h⌋.fmod 1440).toNat,
             (pyInt minutes_needed_final).fdiv 60,
             (pyInt minutes_needed_final).fmod 60)
          else (none, 0, 0)
        some
          { start_time := s
            elapsed_hours := hours
            elapsed_minutes := minutes
            work_hours := work_hours
            work_minutes := work_mins_remainder
            total_work_minutes := work_minutes
            weekly_hours := weekly_hours
            current_day_hours := current_day_hours
            remaining_weekly_hours := remaining_weekly_hours
            lunch_minutes := lunch_minutes
            time_to_leave_7h := tl7.1
            hours_until_7h := tl7.2.1
            mins_until_7h := tl7.2.2
            daily_target_reached := decide (minutes_until_7h ≤ 0)
            show_35h_target := show_35h_target
            time_to_leave_35h := tl35.1
            hours_until_35h := tl35.2.1
            mins_until_35h := tl35.2.2
            weekly_target_reached := decide (remaining_weekly_hours ≤ current_day_hours)
            minutes_needed_for_35h := max 0 (pyInt minutes_needed_final) }

/-- How a run of `WorkLogger.edit_past_day` ended. -/
inductive EditResult where
  | noLogs
  | cancelled
  | invalidDate
  | saved
deriving DecidableEq

/-- `WorkLogger.edit_past_day` (timelogger.py:557-652).  The run aborts when
no work entries exist at all, on a blank date, or on an unparseable date.
Otherwise an entry is created for the date if absent; each time prompt left
blank or answered with an unparseable string leaves that field as it was; then,
whenever both `start` and `end` are present, both derived fields are
recomputed with the current lunch setting (the same inline computation as
`log_end`); finally the store is saved. -/
def edit_past_day (st : Store) (dateIn : DateInput) (newStart newEnd : TimeInput) :
    Store × EditResult :=
  if st.entries = [] then (st, .noLogs)
  else
    match dateIn with
    | .blank => (st, .cancelled)
    | .invalid => (st, .invalidDate)
    | .given d =>
      let e := (st.find d).getD emptyEntry
      let e := match newStart with
               | .given t => { e with start := some t }
               | _ => e
      let e := match newEnd with
               | .given t => { e with endT := some t }
               | _ => e
      let e := match e.start, e.endT with
               | some s, some t =>
                 let (h, w) := compute_worked s t st.lunch_break_minutes
                 { e with hours_worked := some h, total_minutes := some w }
               | _, _ => e
      (st.setEntry d e, .saved)

/-- How a run of `WorkLogger.delete_day` ended. -/
inductive DeleteResult where
  | noLogs
  | cancelled
  | notFound
  | deleted
  | declined
deriving DecidableEq

/-- `WorkLogger.delete_day` (timelogger.py:654-686).  Aborts when no work
entries exist or on a blank date; the typed date is not format-validated, it
is simply looked up (an unparseable string is never a key), so an absent date
reports "No entry found"; an existing date is removed only after a `y`/`yes`
confirmation.  (The guard against typing the literal key `settings` needs no
counterpart: settings live outside the date keyspace in this model.) -/
def delete_day (st : Store) (dateIn : DateInput) (confirm : Bool) :
    Store × DeleteResult :=
  if st.entries = [] then (st, .noLogs)
  else
    match dateIn with
    | .blank => (st, .cancelled)
    | .invalid => (st, .notFound)
    | .given d =>
      match st.find d with
      | none => (st, .notFound)
      | some _ =>
        if confirm then (st.erase d, .deleted) else (st, .declined)

/-- The store of a fresh installation: `load_data` (timelogger.py:19-34) on a
missing, empty or corrupt file yields the bare settings record with the
default 30-minute lunch break and no date entries. -/
def initialStore : Store := { lunch_break_minutes := 30, entries := [] }

/-- The stores the program itself can build: the fresh store, closed under
every mutating command of the surface (the viewing commands never change the
store). -/
inductive Reachable : Store → Prop
  | init : Reachable initialStore
  | lstart (st : Store) (today nowMin : Nat) (input : TimeInput) :
      Reachable st → Reachable (log_start st today nowMin input).1
  | lend (st : Store) (today nowMin : Nat) (input : TimeInput) :
      Reachable st → Reachable (log_end st today nowMin input).1
  | edit (st : Store) (dateIn : DateInput) (newStart newEnd : TimeInput) :
      Reachable st → Reachable (edit_past_day st dateIn newStart newEnd).1
  | del (st : Store) (dateIn : DateInput) (confirm : Bool) :
      Reachable st → Reachable (delete_day st dateIn confirm).1
  | lunch (st : Store) (minutes : Int) :
      Reachable st → Reachable (configure_lunch_break st minutes)

/-! ### Association-list lemmas for the store -/

theorem upsert_cons (a : Nat) (b : DayEntry) (rest : List (Nat × DayEntry))
    (d : Nat) (e : DayEntry) :
    upsert ((a, b) :: rest) d e =
      if a = d then (d, e) :: rest else (a, b) :: upsert rest d e := rfl

theorem findPairs_upsert (l : List (Nat × DayEntry)) (d : Nat) (e : DayEntry)
    (d' : Nat) :
    findPairs (upsert l d e) d' = if d' = d then some e else findPairs l d' := by
  induction l with
  | nil =>
    show (if d = d' then some e else findPairs [] d') = _
    by_cases h : d' = d
    · rw [if_pos h.symm, if_pos h]
    · rw [if_neg (fun hh => h hh.symm), if_neg h]
  | cons p rest ih =>
    obtain ⟨a, b⟩ := p
    by_cases ha : a = d
    · subst ha
      rw [upsert_cons, if_pos rfl]
      by_cases h : d' = a
      · show (if a = d' then some e else findPairs rest d') = _
        rw [if_pos h.symm, if_pos h]
      · show (if a = d' then some e else findPairs rest d') = _
        rw [if_neg (fun hh => h hh.symm), if_neg h]
        show _ = if a = d' then some b else findPairs rest d'
        rw [if_neg (fun hh => h hh.symm)]
    · rw [upsert_cons, if_neg ha]
      show (if a = d' then some b else findPairs (upsert rest d e) d') = _
      by_cases h : a = d'
      · rw [if_pos h, if_neg (fun hh : d' = d => ha (h.trans hh))]
        show _ = if a = d' then some b else findPairs rest d'
        rw [if_pos h]
      · rw [if_neg h, ih]
        by_cases hd : d' = d
        · rw [if_pos hd, if_pos hd]
        · rw [if_neg hd, if_neg hd]
          show _ = if a = d' then some b else findPairs rest d'
          rw [if_neg h]

theorem Store.find_setEntry (st : Store) (d : Nat) (e : DayEntry) (d' : Nat) :
    (st.setEntry d e).find d' = if d' = d then some e else st.find d' :=
  findPairs_upsert st.entries d e d'

theorem findPairs_filter_ne (l : List (Nat × DayEntry)) (d d' : Nat) :
    findPairs (l.filter fun p => p.1 ≠ d) d' =
      if d' = d then none else findPairs l d' := by
  induction l with
  | nil =>
    show findPairs [] d' = if d' = d then none else findPairs [] d'
    by_cases h : d' = d
    · rw [if_pos h]; rfl
    · rw [if_neg h]
  | cons p rest ih =>
    obtain ⟨a, b⟩ := p
    by_cases ha : a = d
    · rw [List.filter_cons_of_neg (by simp [ha]), ih]
      by_cases h : d' = d
      · rw [if_pos h, if_pos h]
      · rw [if_neg h, if_neg h]
        show _ = if a = d' then some b else findPairs rest d'
        rw [if_neg (fun hh : a = d' => h (hh.symm.trans ha))]
  -- `a = d'` with `a = d` would force `d' = d`
    · rw [List.filter_cons_of_pos (by simp [ha])]
      show (if a = d' then some b else findPairs (rest.filter fun p => p.1 ≠ d) d') = _
      by_cases h : a = d'
      · rw [if_pos h, if_neg (fun hh : d' = d => ha (h.trans hh))]
        show _ = if a = d' then some b else findPairs rest d'
        rw [if_pos h]
      · rw [if_neg h, ih]
        by_cases hd : d' = d
        · rw [if_pos hd, if_pos hd]
        · rw [if_neg hd, if_neg hd]
          show _ = if a = d' then some b else findPairs rest d'
          rw [if_neg h]

theorem Store.find_erase (st : Store) (d d' : Nat) :
    (st.erase d).find d' = if d' = d then none else st.find d' :=
  findPairs_filter_ne st.entries d d'

theorem findPairs_map_value (l : List (Nat × DayEntry)) (g : DayEntry → DayEntry)
    (d : Nat) :
    findPairs (l.map fun p => (p.1, g p.2)) d = (findPairs l d).map g := by
  induction l with
  | nil => rfl
  | cons p rest ih =>
    obtain ⟨a, b⟩ := p
    show (if a = d then some (g b) else findPairs (rest.map fun p => (p.1, g p.2)) d) = _
    by_cases h : a = d
    · rw [if_pos h]
      show _ = Option.map g (if a = d then some b else findPairs rest d)
      rw [if_pos h]
      rfl
    · rw [if_neg h, ih]
      show _ = Option.map g (if a = d then some b else findPairs rest d)
      rw [if_neg h]

theorem upsert_self (l : List (Nat × DayEntry)) (d : Nat) (e : DayEntry)
    (h : findPairs l d = some e) : upsert l d e = l := by
  induction l with
  | nil => exact Option.noConfusion h
  | cons p rest ih =>
    obtain ⟨a, b⟩ := p
    by_cases ha : a = d
    · have hb : b = e := by
        have : (if a = d then some b else findPairs rest d) = some e := h
        rw [if_pos ha] at this
        exact Option.some.injEq b e ▸ this.symm ▸ rfl
      subst ha
      rw [upsert_cons, if_pos rfl, hb]
    · have hrest : findPairs rest d = some e := by
        have : (if a = d then some b else findPairs rest d) = some e := h
        rwa [if_neg ha] at this
      rw [upsert_cons, if_neg ha, ih hrest]

theorem Store.setEntry_self (st : Store) (d : Nat) (e : DayEntry)
    (h : st.find d = some e) : st.setEntry d e = st := by
  unfold Store.setEntry
  rw [upsert_self st.entries d e h]

theorem findPairs_isSome_ne_nil (l : List (Nat × DayEntry)) (d : Nat)
    (e : DayEntry) (h : findPairs l d = some e) : l ≠ [] := by
  intro hl
  subst hl
  simp [findPairs] at h

/-- The first-Monday test can never fire for a date whose entry has a
recorded start: such an entry is neither absent nor the empty dict. -/
theorem is_first_monday_of_start (st : Store) (today : Nat) (en : DayEntry)
    (s : Nat) (hfind : st.find today = some en) (hstart : en.start = some s) :
    is_first_monday_input st today = false := by
  unfold is_first_monday_input
  by_cases hm : today % 7 ≠ 0
  · simp [hm]
  · have hne : en ≠ emptyEntry := by
      intro he
      rw [he] at hstart
      exact Option.noConfusion hstart
    simp [hm, hfind, hne]

/-! ### The per-entry shape the operations actually maintain -/

/-- The derived-field discipline every operation preserves: `hours_worked`
and `total_minutes` are present exactly together, only on entries that have
both `start` and `end`, and always satisfy
`hours_worked = round(total_minutes / 60, 2)`. -/
def EntryWF (e : DayEntry) : Prop :=
  (e.hours_worked.isSome ↔ e.total_minutes.isSome) ∧
  (e.hours_worked.isSome → e.start.isSome ∧ e.endT.isSome) ∧
  ∀ h t, e.hours_worked = some h → e.total_minutes = some t →
    h = round2 ((t : ℚ) / 60)

def StoreWF (st : Store) : Prop :=
  ∀ d e, st.find d = some e → EntryWF e

theorem compute_worked_fst (s t : Nat) (L : Int) :
    (compute_worked s t L).1 = round2 (((compute_worked s t L).2 : ℚ) / 60) := rfl

theorem EntryWF_empty : EntryWF emptyEntry := by
  refine ⟨by simp [emptyEntry], by simp [emptyEntry], ?_⟩
  intro h t hh _
  simp [emptyEntry] at hh

theorem EntryWF_set_start (e : DayEntry) (t : Nat) (he : EntryWF e) :
    EntryWF { e with start := some t } := by
  refine ⟨he.1, fun hs => ⟨by simp, (he.2.1 hs).2⟩, he.2.2⟩

theorem EntryWF_derive (e : DayEntry) (s t : Nat) (L : Int)
    (hs : e.start = some s) :
    EntryWF { e with endT := some t,
                     hours_worked := some (compute_worked s t L).1,
                     total_minutes := some (compute_worked s t L).2 } := by
  refine ⟨by simp, fun _ => ⟨by simp [hs], by simp⟩, ?_⟩
  intro h w hh hw
  simp only [Option.some.injEq] at hh hw
  rw [← hh, ← hw]
  exact compute_worked_fst s t L

theorem EntryWF_recalc (L : Int) (e : DayEntry) (he : EntryWF e) :
    EntryWF (recalcEntry L e) := by
  unfold recalcEntry
  cases hs : e.start with
  | none =>
    cases ht : e.endT with
    | none => exact he
    | some t => exact he
  | some s =>
    cases ht : e.endT with
    | none => exact he
    | some t =>
      refine ⟨by simp, fun _ => ⟨by simp [hs], by simp [ht]⟩, ?_⟩
      intro h w hh hw
      simp only [Option.some.injEq] at hh hw
      rw [← hh, ← hw]
      exact compute_worked_fst s t L

theorem StoreWF_clear (st : Store) : StoreWF (clear_previous_entries st) := by
  intro d e h
  exact Option.noConfusion h

theorem StoreWF_setEntry (st : Store) (d : Nat) (e : DayEntry)
    (h : StoreWF st) (he : EntryWF e) : StoreWF (st.setEntry d e) := by
  intro d' e' hf
  rw [Store.find_setEntry] at hf
  by_cases hd : d' = d
  · rw [if_pos hd] at hf
    cases hf
    exact he
  · rw [if_neg hd] at hf
    exact h d' e' hf

theorem StoreWF_monday_clear (st : Store) (today : Nat) (h : StoreWF st) :
    StoreWF (if is_first_monday_input st today then clear_previous_entries st else st) := by
  split
  · exact StoreWF_clear st
  · exact h

theorem StoreWF_found (st : Store) (d : Nat) (h : StoreWF st) :
    EntryWF ((st.find d).getD emptyEntry) := by
  cases hf : st.find d with
  | none => exact EntryWF_empty
  | some e => exact h d e hf

theorem StoreWF_log_start (st : Store) (today nowMin : Nat) (input : TimeInput)
    (h : StoreWF st) : StoreWF (log_start st today nowMin input).1 := by
  unfold log_start
  have h1 := StoreWF_monday_clear st today h
  cases input with
  | invalid => exact h1
  | blank => exact StoreWF_setEntry _ today _ h1 (EntryWF_set_start _ nowMin (StoreWF_found _ today h1))
  | given t => exact StoreWF_setEntry _ today _ h1 (EntryWF_set_start _ t (StoreWF_found _ today h1))

theorem StoreWF_log_end_at (st : Store) (today t : Nat) (h : StoreWF st) :
    StoreWF (log_end_at st today t).1 := by
  cases hf : st.find today with
  | none =>
    simp only [log_end_at, hf]
    exact StoreWF_setEntry st today emptyEntry h EntryWF_empty
  | some e =>
    cases hs : e.start with
    | none => simp only [log_end_at, hf, hs]; exact h
    | some s =>
      simp only [log_end_at, hf, hs]
      have hd := EntryWF_derive e s t st.lunch_break_minutes hs
      rw [hs] at hd
      exact StoreWF_setEntry st today _ h hd

theorem StoreWF_log_end (st : Store) (today nowMin : Nat) (input : TimeInput)
    (h : StoreWF st) : StoreWF (log_end st today nowMin input).1 := by
  unfold log_end
  have h1 := StoreWF_monday_clear st today h
  cases input with
  | invalid => exact h1
  | blank => exact StoreWF_log_end_at _ today nowMin h1
  | given t => exact StoreWF_log_end_at _ today t h1

theorem StoreWF_edit (st : Store) (dateIn : DateInput) (newStart newEnd : TimeInput)
    (h : StoreWF st) : StoreWF (edit_past_day st dateIn newStart newEnd).1 := by
  unfold edit_past_day
  split
  · exact h
  · cases dateIn with
    | blank => exact h
    | invalid => exact h
    | given d =>
      apply StoreWF_setEntry _ d _ h
      have he0 : EntryWF ((st.find d).getD emptyEntry) := StoreWF_found st d h
      set e0 := (st.find d).getD emptyEntry with he0d
      have he1 : EntryWF (match newStart with
                          | .given t => { e0 with start := some t }
                          | _ => e0) := by
        cases newStart with
        | blank => exact he0
        | invalid => exact he0
        | given t => exact EntryWF_set_start e0 t he0
      set e1 := (match newStart with
                 | TimeInput.given t => { e0 with start := some t }
                 | _ => e0) with he1d
      have he2 : EntryWF (match newEnd with
                          | .given t => { e1 with endT := some t }
                          | _ => e1) := by
        cases newEnd with
        | blank => exact he1
        | invalid => exact he1
        | given t =>
          refine ⟨he1.1, fun hs => ⟨(he1.2.1 hs).1, by simp⟩, he1.2.2⟩
      set e2 := (match newEnd with
                 | TimeInput.given t => { e1 with endT := some t }
                 | _ => e1) with he2d
      cases hs : e2.start with
      | none =>
        cases ht : e2.endT with
        | none => simp only [hs, ht]; exact he2
        | some t => simp only [hs, ht]; exact he2
      | some s =>
        cases ht : e2.endT with
        | none => simp only [hs, ht]; exact he2
        | some t =>
          simp only [hs, ht]
          refine ⟨by simp, fun _ => ⟨by simp [hs], by simp [ht]⟩, ?_⟩
          intro hq w hh hw
          simp only [Option.some.injEq] at hh hw
          rw [← hh, ← hw]
          exact compute_worked_fst s t _

theorem StoreWF_delete (st : Store) (dateIn : DateInput) (confirm : Bool)
    (h : StoreWF st) : StoreWF (delete_day st dateIn confirm).1 := by
  by_cases hnil : st.entries = []
  · simp only [delete_day, if_pos hnil]
    exact h
  · cases dateIn with
    | blank => simp only [delete_day, if_neg hnil]; exact h
    | invalid => simp only [delete_day, if_neg hnil]; exact h
    | given d =>
      cases hf : st.find d with
      | none => simp only [delete_day, if_neg hnil, hf]; exact h
      | some e =>
        cases confirm with
        | false => simp only [delete_day, if_neg hnil, hf]; exact h
        | true =>
          simp only [delete_day, if_neg hnil, hf, if_true]
          intro d' e' hf'
          rw [Store.find_erase] at hf'
          by_cases hd : d' = d
          · rw [if_pos hd] at hf'
            exact Option.noConfusion hf'
          · rw [if_neg hd] at hf'
            exact h d' e' hf'

theorem StoreWF_lunch (st : Store) (minutes : Int) (h : StoreWF st) :
    StoreWF (configure_lunch_break st minutes) := by
  unfold configure_lunch_break
  split
  · intro d e hf
    unfold recalculate_all_entries at hf
    have : (Store.find { set_lunch_break_minutes st minutes with
        entries := (set_lunch_break_minutes st minutes).entries.map
          (fun p => (p.1, recalcEntry (set_lunch_break_minutes st minutes).lunch_break_minutes p.2)) } d) =
        (findPairs (set_lunch_break_minutes st minutes).entries d).map
          (recalcEntry (set_lunch_break_minutes st minutes).lunch_break_minutes) :=
      findPairs_map_value _ _ d
    rw [this] at hf
    cases hp : findPairs (set_lunch_break_minutes st minutes).entries d with
    | none => rw [hp] at hf; exact Option.noConfusion hf
    | some e0 =>
      rw [hp, Option.map_some'] at hf
      injection hf with hf
      subst hf
      exact EntryWF_recalc _ e0 (h d e0 hp)
  · exact h

/-! ### Further lemmas used to state and settle the claims -/

/-- The claims' per-date contribution to a weekly total: the stored
`hours_worked`, with an absent entry, or an entry without `hours_worked`,
contributing 0. -/
def weeklyContrib (st : Store) (d : Nat) : ℚ :=
  match st.find d with
  | some e => e.hours_worked.getD 0
  | none => 0

theorem weeklyStep_eq (st : Store) (target : Nat) (acc : ℚ) (i : Nat) :
    weeklyStep st target acc i = acc + weeklyContrib st (get_week_start target + i) := by
  unfold weeklyStep weeklyContrib
  cases st.find (get_week_start target + i) with
  | none => exact (add_zero acc).symm
  | some e => rfl

theorem is_first_monday_iff (st : Store) (today : Nat) :
    is_first_monday_input st today = true ↔
      today % 7 = 0 ∧ (st.find today = none ∨ st.find today = some emptyEntry) := by
  unfold is_first_monday_input
  by_cases hm : today % 7 = 0
  · cases hf : st.find today with
    | none => simp [hm, hf]
    | some e =>
      by_cases hee : e = emptyEntry
      · simp [hm, hf, hee]
      · simp [hm, hf, hee]
  · simp [hm]

/-! ### The claims -/

/-- C1: for every parseable start and end time and every lunch setting,
logging an end stores `total_minutes` equal to the wall-clock span in minutes
(an end earlier than the start counting as next-day) minus the lunch setting,
and `hours_worked` equal to that total over 60 rounded to two decimals; the
full-store recalculation stores the same two values on every entry with both
stamps.  Nothing is clamped: the formula itself goes negative when the lunch
setting exceeds the span. -/
theorem claim_C1 (st : Store) (today nowMin sMin eMin : Nat) (en : DayEntry)
    (hs : sMin < 1440) (he : eMin < 1440)
    (hfind : st.find today = some en) (hstart : en.start = some sMin) :
    ((log_end st today nowMin (.given eMin)).2 = .ok ∧
      (log_end st today nowMin (.given eMin)).1.find today =
        some { en with
               endT := some eMin,
               hours_worked := some (round2
                 ((((if eMin < sMin then (eMin : Int) + 1440 - sMin
                     else (eMin : Int) - sMin) - st.lunch_break_minutes : Int) : ℚ) / 60)),
               total_minutes := some
                 ((if eMin < sMin then (eMin : Int) + 1440 - sMin
                   else (eMin : Int) - sMin) - st.lunch_break_minutes) }) ∧
    ∀ (st' : Store) (d : Nat) (e' : DayEntry) (s t : Nat),
      st'.find d = some e' → e'.start = some s → e'.endT = some t →
      (recalculate_all_entries st').find d =
        some { e' with
               hours_worked := some (round2
                 ((((if t < s then (t : Int) + 1440 - s
                     else (t : Int) - s) - st'.lunch_break_minutes : Int) : ℚ) / 60)),
               total_minutes := some
                 ((if t < s then (t : Int) + 1440 - s
                   else (t : Int) - s) - st'.lunch_break_minutes) } := by
  constructor
  · have hm := is_first_monday_of_start st today en sMin hfind hstart
    constructor
    · simp [log_end, log_end_at, hm, hfind, hstart, compute_worked]
    · simp only [log_end, log_end_at, hm, hfind, hstart, compute_worked,
        Bool.false_eq_true, if_false]
      rw [Store.find_setEntry, if_pos rfl]
  · intro st' d e' s t hf hs' ht'
    have hmap : (recalculate_all_entries st').find d =
        (st'.find d).map (recalcEntry st'.lunch_break_minutes) :=
      findPairs_map_value st'.entries (recalcEntry st'.lunch_break_minutes) d
    rw [hmap, hf, Option.map_some']
    simp only [recalcEntry, hs', ht', compute_worked]

def c1Store : Store :=
  { lunch_break_minutes := 30, entries := [(3, { start := some 1380 })] }

def c1StoreShort : Store :=
  { lunch_break_minutes := 30, entries := [(4, { start := some 540, endT := some 550 })] }

/-- Witness for C1: the spec's overnight example (start 23:00, end 01:00,
lunch 30 gives 90 minutes and 1.5 hours), and the recalculation of a
10-minute day with a 30-minute lunch, which stores the unclamped negative
total −20 and hours −0.33. -/
theorem claim_C1_witness :
    ((log_end c1Store 3 0 (.given 60)).2 = .ok ∧
      (log_end c1Store 3 0 (.given 60)).1.find 3 =
        some { start := some 1380, endT := some 60,
               hours_worked := some (3 / 2), total_minutes := some 90 }) ∧
    (recalculate_all_entries c1StoreShort).find 4 =
      some { start := some 540, endT := some 550,
             hours_worked := some (-33 / 100), total_minutes := some (-20) } := by
  have h := claim_C1 c1Store 3 0 1380 60 { start := some 1380 }
    (by decide) (by decide) rfl rfl
  refine ⟨⟨h.1.1, h.1.2.trans ?_⟩, ?_⟩
  · norm_num [c1Store, round2]
  · have h2 := h.2 c1StoreShort 4 { start := some 540, endT := some 550 } 540 550
      rfl rfl rfl
    refine h2.trans ?_
    norm_num [c1StoreShort, round2]

/-- C2: a start log on a Monday whose entry is absent or still the empty dict
wipes every date entry, keeps the settings, and leaves exactly the settings
plus the one new Monday entry holding only the resolved start time; a start
log in any other situation removes no entry and touches no date other than
today. -/
theorem claim_C2 (st : Store) (today nowMin : Nat) (input : TimeInput) :
    ((today % 7 = 0 ∧ (st.find today = none ∨ st.find today = some emptyEntry)) →
      input ≠ .invalid →
      ∃ t : Nat,
        (log_start st today nowMin input).2 = true ∧
        (log_start st today nowMin input).1.lunch_break_minutes =
          st.lunch_break_minutes ∧
        (log_start st today nowMin input).1.entries =
          [(today, { start := some t })]) ∧
    (¬(today % 7 = 0 ∧ (st.find today = none ∨ st.find today = some emptyEntry)) →
      (log_start st today nowMin input).1.lunch_break_minutes =
        st.lunch_break_minutes ∧
      (∀ d : Nat, d ≠ today →
        (log_start st today nowMin input).1.find d = st.find d) ∧
      ∀ d : Nat, (st.find d).isSome →
        ((log_start st today nowMin input).1.find d).isSome) := by
  constructor
  · intro htrig hinput
    have hm : is_first_monday_input st today = true :=
      (is_first_monday_iff st today).2 htrig
    cases input with
    | invalid => exact absurd rfl hinput
    | blank =>
      refine ⟨nowMin, ?_, ?_, ?_⟩ <;>
        simp [log_start, hm, clear_previous_entries, Store.setEntry, Store.find,
          upsert, findPairs, emptyEntry]
    | given t =>
      refine ⟨t, ?_, ?_, ?_⟩ <;>
        simp [log_start, hm, clear_previous_entries, Store.setEntry, Store.find,
          upsert, findPairs, emptyEntry]
  · intro htrig
    have hm : is_first_monday_input st today = false := by
      cases hb : is_first_monday_input st today
      · rfl
      · exact absurd ((is_first_monday_iff st today).1 hb) htrig
    have hset : ∀ e : DayEntry,
        (st.setEntry today e).lunch_break_minutes = st.lunch_break_minutes ∧
        (∀ d : Nat, d ≠ today → (st.setEntry today e).find d = st.find d) ∧
        ∀ d : Nat, (st.find d).isSome → ((st.setEntry today e).find d).isSome := by
      intro e
      refine ⟨rfl, ?_, ?_⟩
      · intro d hd
        rw [Store.find_setEntry, if_neg hd]
      · intro d hsome
        rw [Store.find_setEntry]
        by_cases hd : d = today
        · rw [if_pos hd]; rfl
        · rw [if_neg hd]; exact hsome
    cases input with
    | invalid => simp [log_start, hm]
    | blank =>
      simp only [log_start, hm, Bool.false_eq_true, if_false]
      exact hset _
    | given t =>
      simp only [log_start, hm, Bool.false_eq_true, if_false]
      exact hset _

def c2Store : Store :=
  { lunch_break_minutes := 45,
    entries := [(2, { start := some 540, endT := some 1020,
                      hours_worked := some (29 / 4), total_minutes := some 435 })] }

/-- Witness for C2: a store holding a Wednesday entry, hit by a start log on
the following Monday (day 7), ends up as settings plus the single new Monday
entry; the same store hit by a start log on a Tuesday keeps its entry. -/
theorem claim_C2_witness :
    (∃ t : Nat,
      (log_start c2Store 7 510 (.given 495)).2 = true ∧
      (log_start c2Store 7 510 (.given 495)).1.lunch_break_minutes = 45 ∧
      (log_start c2Store 7 510 (.given 495)).1.entries =
        [(7, { start := some t })]) ∧
    (log_start c2Store 8 510 (.given 495)).1.find 2 = c2Store.find 2 := by
  constructor
  · exact (claim_C2 c2Store 7 510 (.given 495)).1 (by decide) (by decide)
  · exact ((claim_C2 c2Store 8 510 (.given 495)).2 (by decide)).2.1 2 (by decide)

/-- The store a failed-for-missing-start `log_end` actually leaves behind
(used to state C3's amendment): the first-Monday clearing has run, and an
empty entry has been inserted for the resolved date if it had none. -/
def log_end_missing_result (st : Store) (today : Nat) : Store :=
  let st1 := if is_first_monday_input st today then clear_previous_entries st else st
  match st1.find today with
  | none => st1.setEntry today emptyEntry
  | some _ => st1

theorem log_end_at_missingStart (st : Store) (today t : Nat)
    (hfail : (log_end_at st today t).2 = .missingStart) :
    (log_end_at st today t).1 =
      (match st.find today with
       | none => st.setEntry today emptyEntry
       | some _ => st) := by
  cases hf : st.find today with
  | none => simp only [log_end_at, hf]
  | some e =>
    cases hs : e.start with
    | none => simp only [log_end_at, hf, hs]
    | some s =>
      exfalso
      simp only [log_end_at, hf, hs] at hfail
      exact LogEndResult.noConfusion hfail

theorem log_end_at_lunch (st : Store) (today t : Nat) :
    (log_end_at st today t).1.lunch_break_minutes = st.lunch_break_minutes := by
  cases hf : st.find today with
  | none => simp only [log_end_at, hf]; rfl
  | some e =>
    cases hs : e.start with
    | none => simp only [log_end_at, hf, hs]
    | some s => simp only [log_end_at, hf, hs]; rfl

def c3Store : Store :=
  { lunch_break_minutes := 30,
    entries := [(0, { start := some 540, endT := some 1020,
                      hours_worked := some (15 / 2), total_minutes := some 450 })] }

/-- C3 as stated is false: with a prior-week Monday entry in the store and
no entry for the new Monday (day 7), a `log_end` that fails with the
missing-start message has nevertheless wiped the old entry (the rollover ran
first) and left a fresh empty entry for day 7. -/
theorem claim_C3_counterexample :
    (log_end c3Store 7 600 .blank).2 = .missingStart ∧
    (log_end c3Store 7 600 .blank).1.find 0 = none ∧
    (log_end c3Store 7 600 .blank).1.find 7 = some emptyEntry ∧
    (log_end c3Store 7 600 .blank).1 ≠ c3Store := by
  refine ⟨rfl, rfl, rfl, ?_⟩
  intro hEq
  have hsame : (log_end c3Store 7 600 .blank).1.find 0 = c3Store.find 0 := by
    rw [hEq]
  have hnone : (none : Option DayEntry) =
      some { start := some 540, endT := some 1020,
             hours_worked := some (15 / 2), total_minutes := some 450 } := hsame
  exact Option.noConfusion hnone

/-- C3 corrected: when `log_end` fails with the missing-start message, the
store it leaves is the prior store after (a) the first-Monday rollover
clearing, if that fired, and (b) the insertion of an empty entry for the
resolved date if it had none; the settings survive, and every entry of the
resulting store is either an untouched entry of the prior store or that fresh
empty entry. -/
theorem claim_C3 (st : Store) (today nowMin : Nat) (input : TimeInput)
    (hfail : (log_end st today nowMin input).2 = .missingStart) :
    (log_end st today nowMin input).1 = log_end_missing_result st today ∧
    (log_end st today nowMin input).1.lunch_break_minutes =
      st.lunch_break_minutes ∧
    ∀ (d : Nat) (e : DayEntry),
      (log_end st today nowMin input).1.find d = some e →
      st.find d = some e ∨ e = emptyEntry := by
  have hmain : ∀ t : Nat,
      (log_end_at (if is_first_monday_input st today then clear_previous_entries st
                   else st) today t).2 = .missingStart →
      (log_end_at (if is_first_monday_input st today then clear_previous_entries st
                   else st) today t).1 = log_end_missing_result st today ∧
      (log_end_at (if is_first_monday_input st today then clear_previous_entries st
                   else st) today t).1.lunch_break_minutes = st.lunch_break_minutes ∧
      ∀ (d : Nat) (e : DayEntry),
        (log_end_at (if is_first_monday_input st today then clear_previous_entries st
                     else st) today t).1.find d = some e →
        st.find d = some e ∨ e = emptyEntry := by
    intro t hf
    set st1 := (if is_first_monday_input st today then clear_previous_entries st
                else st) with hst1
    have hres : (log_end_at st1 today t).1 =
        (match st1.find today with
         | none => st1.setEntry today emptyEntry
         | some _ => st1) := log_end_at_missingStart st1 today t hf
    refine ⟨hres, ?_, ?_⟩
    · rw [log_end_at_lunch]
      rw [hst1]
      split
      · rfl
      · rfl
    · intro d e hfind
      rw [hres] at hfind
      have hst1find : ∀ d' : Nat, ∀ e' : DayEntry, st1.find d' = some e' →
          st.find d' = some e' := by
        intro d' e' hf'
        rw [hst1] at hf'
        by_cases hmon : is_first_monday_input st today = true
        · rw [if_pos hmon] at hf'
          exact Option.noConfusion hf'
        · rw [if_neg hmon] at hf'
          exact hf'
      cases hft : st1.find today with
      | none =>
        rw [hft] at hfind
        rw [Store.find_setEntry] at hfind
        by_cases hd : d = today
        · rw [if_pos hd] at hfind
          right
          exact (Option.some.inj hfind).symm
        · rw [if_neg hd] at hfind
          left
          exact hst1find d e hfind
      | some e0 =>
        rw [hft] at hfind
        left
        exact hst1find d e hfind
  cases input with
  | invalid =>
    exfalso
    have : (LogEndResult.invalidTime) = LogEndResult.missingStart := hfail
    exact LogEndResult.noConfusion this
  | blank => exact hmain nowMin hfail
  | given t => exact hmain t hfail

def c3TueStore : Store :=
  { lunch_break_minutes := 30, entries := [(0, { start := some 540 })] }

/-- Witness for C3's amendment: a Tuesday (day 1) `log_end` with no entry for
that day fails with the missing-start message; the store it leaves is the
prior store plus an empty entry for day 1 and nothing else changed. -/
theorem claim_C3_witness :
    (log_end c3TueStore 1 600 .blank).1 = log_end_missing_result c3TueStore 1 ∧
    (log_end c3TueStore 1 600 .blank).1.lunch_break_minutes = 30 ∧
    ∀ (d : Nat) (e : DayEntry),
      (log_end c3TueStore 1 600 .blank).1.find d = some e →
      c3TueStore.find d = some e ∨ e = emptyEntry :=
  claim_C3 c3TueStore 1 600 .blank rfl

theorem get_weekly_hours_eq_sum (st : Store) (target : Nat) :
    get_weekly_hours st target =
      ∑ i ∈ Finset.range 7, weeklyContrib st (get_week_start target + i) := by
  unfold get_weekly_hours
  have h7 : List.range 7 = [0, 1, 2, 3, 4, 5, 6] := rfl
  rw [h7]
  simp only [List.foldl_cons, List.foldl_nil]
  rw [weeklyStep_eq, weeklyStep_eq, weeklyStep_eq, weeklyStep_eq, weeklyStep_eq,
    weeklyStep_eq, weeklyStep_eq]
  rw [Finset.sum_range_succ, Finset.sum_range_succ, Finset.sum_range_succ,
    Finset.sum_range_succ, Finset.sum_range_succ, Finset.sum_range_succ,
    Finset.sum_range_succ, Finset.sum_range_zero]

def c4ExStore : Store :=
  { lunch_break_minutes := 30,
    entries := [(7, { start := some 540, endT := some 990,
                      hours_worked := some 7, total_minutes := some 420 }),
                (8, { start := some 540, endT := some 990,
                      hours_worked := some 7, total_minutes := some 420 })] }

/-- C4: the weekly total at any reference date is the sum of the stored
`hours_worked` over the 7 consecutive dates starting at the Monday of that
week (`referenceDate` minus its weekday index), with an absent entry, or an
entry without `hours_worked`, contributing 0; and a week holding only
Mon = 7.0 and Tue = 7.0 totals 14.0. -/
theorem claim_C4 (st : Store) (referenceDate : Nat) :
    (get_weekly_hours st referenceDate =
      ∑ i ∈ Finset.range 7,
        weeklyContrib st (referenceDate - referenceDate % 7 + i)) ∧
    get_weekly_hours c4ExStore 9 = 14 := by
  constructor
  · rw [get_weekly_hours_eq_sum]
    rfl
  · rw [get_weekly_hours_eq_sum]
    simp only [Finset.sum_range_succ, Finset.sum_range_zero, weeklyContrib,
      Store.find, findPairs, c4ExStore, get_week_start]
    norm_num

/-- C5: changing the lunch setting to a valid value stores the new setting
and recomputes both derived fields with it on exactly the entries having both
`start` and `end`; entries missing either stamp, the key set, and the
`start`/`end` fields themselves are all left unchanged. -/
theorem claim_C5 (st : Store) (L : Int) (hL : 0 ≤ L ∧ L ≤ 120) :
    (configure_lunch_break st L).lunch_break_minutes = L ∧
    ∀ d : Nat,
      (configure_lunch_break st L).find d =
        (st.find d).map (fun e =>
          match e.start, e.endT with
          | some s, some t =>
            { e with hours_worked := some (compute_worked s t L).1,
                     total_minutes := some (compute_worked s t L).2 }
          | _, _ => e) := by
  unfold configure_lunch_break
  rw [if_pos hL]
  refine ⟨rfl, ?_⟩
  intro d
  have hmap := findPairs_map_value (set_lunch_break_minutes st L).entries
    (recalcEntry (set_lunch_break_minutes st L).lunch_break_minutes) d
  exact hmap.trans rfl

def c5Store : Store :=
  { lunch_break_minutes := 30,
    entries := [(0, { start := some 510, endT := some 990,
                      hours_worked := some (15 / 2), total_minutes := some 450 }),
                (1, { start := some 480 })] }

/-- Witness for C5: raising the lunch setting from 30 to 60 turns the
completed entry's 450 total minutes (7.5 h) into 420 (7.0 h), stores the new
setting, and leaves the started-but-not-ended entry untouched. -/
theorem claim_C5_witness :
    (configure_lunch_break c5Store 60).lunch_break_minutes = 60 ∧
    (configure_lunch_break c5Store 60).find 0 =
      some { start := some 510, endT := some 990,
             hours_worked := some 7, total_minutes := some 420 } ∧
    (configure_lunch_break c5Store 60).find 1 = some { start := some 480 } := by
  have h := claim_C5 c5Store 60 (by decide)
  refine ⟨h.1, (h.2 0).trans ?_, (h.2 1).trans ?_⟩
  · norm_num [c5Store, Store.find, findPairs, compute_worked, round2]
  · norm_num [c5Store, Store.find, findPairs]

/-- C6: in an active session (today's entry has a start, no end, and no
stored `hours_worked`, so the weekly figure is exactly the week's hours
excluding today), the 35-hour projection is flagged exactly when the stored
weekly hours exceed 27. -/
theorem claim_C6 (st : Store) (today nowMin : Nat) (e : DayEntry) (s : Nat)
    (hfind : st.find today = some e) (hstart : e.start = some s)
    (hend : e.endT = none) (hhours : e.hours_worked = none) :
    ∃ r : WorkInfo, get_current_work_time st today nowMin = some r ∧
      r.show_35h_target = decide (get_weekly_hours st today > 27) := by
  simp only [get_current_work_time, hfind, hstart, hend]
  exact ⟨_, rfl, rfl⟩

def c6Store26 : Store :=
  { lunch_break_minutes := 30,
    entries := [(0, { start := some 480, endT := some 1290,
                      hours_worked := some 13, total_minutes := some 780 }),
                (1, { start := some 480, endT := some 1290,
                      hours_worked := some 13, total_minutes := some 780 }),
                (2, { start := some 540 })] }

def c6Store28 : Store :=
  { lunch_break_minutes := 30,
    entries := [(0, { start := some 480, endT := some 1350,
                      hours_worked := some 14, total_minutes := some 840 }),
                (1, { start := some 480, endT := some 1350,
                      hours_worked := some 14, total_minutes := some 840 }),
                (2, { start := some 540 })] }

/-- Witness for C6: 26 stored weekly hours leave the 35-hour projection off,
28 turn it on. -/
theorem claim_C6_witness :
    (get_current_work_time c6Store26 2 600).map WorkInfo.show_35h_target =
      some false ∧
    (get_current_work_time c6Store28 2 600).map WorkInfo.show_35h_target =
      some true := by
  obtain ⟨r1, h1, hs1⟩ := claim_C6 c6Store26 2 600 { start := some 540 } 540
    rfl rfl rfl rfl
  obtain ⟨r2, h2, hs2⟩ := claim_C6 c6Store28 2 600 { start := some 540 } 540
    rfl rfl rfl rfl
  have hw1 : get_weekly_hours c6Store26 2 = 26 := by
    rw [get_weekly_hours_eq_sum]
    simp only [Finset.sum_range_succ, Finset.sum_range_zero, weeklyContrib,
      Store.find, findPairs, c6Store26, get_week_start]
    norm_num
  have hw2 : get_weekly_hours c6Store28 2 = 28 := by
    rw [get_weekly_hours_eq_sum]
    simp only [Finset.sum_range_succ, Finset.sum_range_zero, weeklyContrib,
      Store.find, findPairs, c6Store28, get_week_start]
    norm_num
  rw [h1, h2, Option.map_some', Option.map_some', hs1, hs2, hw1, hw2]
  have hd1 : decide ((26 : ℚ) > 27) = false := by
    rw [decide_eq_false_iff_not]
    norm_num
  have hd2 : decide ((28 : ℚ) > 27) = true := by
    rw [decide_eq_true_eq]
    norm_num
  rw [hd1, hd2]
  exact ⟨rfl, rfl⟩

def c7Store : Store :=
  { lunch_break_minutes := 30,
    entries := [(0, { start := some 60, endT := some 1290,
                      hours_worked := some 20, total_minutes := some 1200 }),
                (1, { start := some 480, endT := some 1380,
                      hours_worked := some (29 / 2), total_minutes := some 870 }),
                (2, { start := some 540 })] }

/-- C7 as stated is false in its second half: with 34.5 stored weekly hours
(projection active), a session started at 09:00 observed at 09:35 has
elapsed = 35 ≤ 240 and pre-increase needed-minutes (35−34.5)·60 − 35 = −5,
so the claim's formula — always add the lunch anticipation below the
threshold — predicts −5 + 30 = 25 reported minutes, but the code tests
`needed > 0` before adding the lunch and reports 0 with no leave time. -/
theorem claim_C7_counterexample :
    (get_current_work_time c7Store 2 575).map WorkInfo.total_work_minutes =
      some 35 ∧
    (get_current_work_time c7Store 2 575).map WorkInfo.show_35h_target =
      some true ∧
    (get_current_work_time c7Store 2 575).map WorkInfo.minutes_needed_for_35h =
      some 0 ∧
    (get_current_work_time c7Store 2 575).map WorkInfo.time_to_leave_35h =
      some none ∧
    pyInt (((35 : ℚ) - get_weekly_hours c7Store 2) * 60 - 35 + 30) = 25 := by
  have hw : get_weekly_hours c7Store 2 = 69 / 2 := by
    rw [get_weekly_hours_eq_sum]
    simp only [Finset.sum_range_succ, Finset.sum_range_zero, weeklyContrib,
      Store.find, findPairs, c7Store, get_week_start]
    norm_num
  have hfind : c7Store.find 2 = some { start := some 540 } := rfl
  refine ⟨?_, ?_, ?_, ?_, ?_⟩
  · simp only [get_current_work_time, hfind, Option.map_some']
    norm_num
  · simp only [get_current_work_time, hfind, Option.map_some']
    rw [hw]
    norm_num [decide_eq_true_eq]
  · simp only [get_current_work_time, hfind, Option.map_some']
    rw [hw]
    have hceil : ⌈(-5 : ℚ)⌉ = -5 := by
      rw [show ((-5 : ℚ)) = ((-5 : ℤ) : ℚ) by norm_num, Int.ceil_intCast]
    norm_num [pyInt, decide_eq_true_eq, hceil]
  · simp only [get_current_work_time, hfind, Option.map_some']
    rw [hw]
    norm_num [decide_eq_true_eq]
  · rw [hw]
    norm_num [pyInt, Int.ceil_eq_iff]

/-- The two spellings of the needed-minutes figure: the code mutates the
variable inside the `show and needed > 0` branch, the claim's amendment adds
a conditional lunch term. -/
theorem needed_minutes_shape (P : Prop) [Decidable P] (b l : ℚ) (D : Prop)
    [Decidable D] :
    (if (decide P) = true ∧ b > 0 then (if D then b + l else b) else b) =
    (if P ∧ b > 0 then b + (if D then l else 0) else b) := by
  by_cases hP : P
  · by_cases hb : b > 0
    · by_cases hD : D
      · simp [hP, hb, hD]
      · simp [hP, hb, hD]
    · simp [hP, hb]
  · simp [hP]

/-- C7 corrected: in an active session the projection's worked-minutes is the
step function — `elapsed - lunch` once elapsed exceeds 240 minutes, plain
`elapsed` otherwise, never prorated — but the lunch anticipation on the
weekly countdown is conditional: the reported needed-minutes figure is
`35·60 - weekly·60 - worked`, increased by `lunch` (when `elapsed ≤ 240`)
only if the 35-hour projection is active (`weekly > 27`) and the
pre-increase value is positive, and the result is clamped at zero. -/
theorem claim_C7 (st : Store) (today nowMin : Nat) (e : DayEntry) (s : Nat)
    (hfind : st.find today = some e) (hstart : e.start = some s)
    (hend : e.endT = none) :
    ∃ r : WorkInfo, get_current_work_time st today nowMin = some r ∧
      r.total_work_minutes = ((nowMin : Int) - s) -
        (if ((nowMin : Int) - s) > 240 then st.lunch_break_minutes else 0) ∧
      r.minutes_needed_for_35h = max 0 (pyInt
        (if get_weekly_hours st today > 27 ∧
            (35 - get_weekly_hours st today) * 60 - (r.total_work_minutes : ℚ) > 0
         then (35 - get_weekly_hours st today) * 60 - (r.total_work_minutes : ℚ) +
              (if ((nowMin : Int) - s) ≤ 240 then (st.lunch_break_minutes : ℚ) else 0)
         else (35 - get_weekly_hours st today) * 60 - (r.total_work_minutes : ℚ))) := by
  simp only [get_current_work_time, hfind, hstart, hend]
  refine ⟨_, rfl, rfl, ?_⟩
  dsimp only
  rw [needed_minutes_shape]

/-- Witness for C7's amendment: 28 stored weekly hours, session started at
09:00 observed at 10:00 — elapsed 60 is under the 240-minute threshold, so
worked = 60 (no lunch deducted yet) and the needed-minutes figure
(35−28)·60 − 60 = 360 is increased by the 30-minute lunch anticipation
to 390. -/
theorem claim_C7_witness :
    (get_current_work_time c6Store28 2 600).map WorkInfo.total_work_minutes =
      some 60 ∧
    (get_current_work_time c6Store28 2 600).map WorkInfo.minutes_needed_for_35h =
      some 390 := by
  obtain ⟨r, hr, ht, hm⟩ := claim_C7 c6Store28 2 600 { start := some 540 } 540
    rfl rfl rfl
  have hw : get_weekly_hours c6Store28 2 = 28 := by
    rw [get_weekly_hours_eq_sum]
    simp only [Finset.sum_range_succ, Finset.sum_range_zero, weeklyContrib,
      Store.find, findPairs, c6Store28, get_week_start]
    norm_num
  have ht60 : r.total_work_minutes = 60 := by
    rw [ht]
    norm_num
  rw [hr, Option.map_some', Option.map_some', ht60, hm, hw, ht60]
  refine ⟨rfl, ?_⟩
  have hfloor : ⌊(390 : ℚ)⌋ = 390 := by
    rw [show ((390 : ℚ)) = ((390 : ℤ) : ℚ) by norm_num, Int.floor_intCast]
  have hlunch : c6Store28.lunch_break_minutes = 30 := rfl
  norm_num [pyInt, hfloor, hlunch]

/-- The per-entry invariant exactly as claim C8 states it: `end` requires
`start`; the derived fields exist only when both stamps do; and whenever both
stamps exist the derived fields equal the values recomputed from the current
stamps and the current lunch setting. -/
def entryClaimInvariant (lunch : Int) (e : DayEntry) : Prop :=
  (e.endT.isSome = true → e.start.isSome = true) ∧
  ((e.hours_worked.isSome = true ∨ e.total_minutes.isSome = true) →
    e.start.isSome = true ∧ e.endT.isSome = true) ∧
  ∀ s t : Nat, e.start = some s → e.endT = some t →
    e.hours_worked = some (compute_worked s t lunch).1 ∧
    e.total_minutes = some (compute_worked s t lunch).2

/-- C8 as stated is false: starting from a fresh store, log a start for
day 0, then edit day 1 (absent until then) leaving the start prompt empty and
typing an end of 17:00 — the stored day-1 entry then has an `end` but no
`start`, violating the claimed shape.  (Another violation, recorded at C10:
re-logging a start leaves the derived fields stale.) -/
theorem claim_C8_counterexample :
    ((edit_past_day (log_start initialStore 0 540 (.given 540)).1
        (.given 1) .blank (.given 1020)).1.find 1 =
      some { start := none, endT := some 1020,
             hours_worked := none, total_minutes := none }) ∧
    ¬ entryClaimInvariant
        ((edit_past_day (log_start initialStore 0 540 (.given 540)).1
            (.given 1) .blank (.given 1020)).1.lunch_break_minutes)
        { start := none, endT := some 1020,
          hours_worked := none, total_minutes := none } := by
  refine ⟨rfl, ?_⟩
  intro h
  exact Bool.noConfusion (h.1 rfl)

/-- C8 corrected: after every operation, starting from a fresh store, each
stored entry satisfies the discipline the code actually maintains —
`hours_worked` and `total_minutes` are present exactly together, only when
both `start` and `end` are present, and always satisfy
`hours_worked = round(total_minutes/60, 2)`.  But `end` can exist without
`start` (an edit can type only an end on a fresh date), and when both stamps
exist the derived fields reflect the stamps and lunch setting of their last
derivation, which a later re-logged start can leave stale. -/
theorem claim_C8 (st : Store) (h : Reachable st) : StoreWF st := by
  induction h with
  | init =>
    intro d e hf
    exact Option.noConfusion hf
  | lstart st today nowMin input _ ih => exact StoreWF_log_start st today nowMin input ih
  | lend st today nowMin input _ ih => exact StoreWF_log_end st today nowMin input ih
  | edit st dateIn newStart newEnd _ ih => exact StoreWF_edit st dateIn newStart newEnd ih
  | del st dateIn confirm _ ih => exact StoreWF_delete st dateIn confirm ih
  | lunch st minutes _ ih => exact StoreWF_lunch st minutes ih

/-- Witness for C8's amendment: the store reached by logging 08:00–16:00 on a
Tuesday satisfies the maintained invariant. -/
theorem claim_C8_witness :
    StoreWF (log_end (log_start initialStore 1 480 (.given 480)).1
      1 960 (.given 960)).1 :=
  claim_C8 _ (Reachable.lend _ 1 960 _ (Reachable.lstart _ 1 480 _ Reachable.init))

def c9Store : Store :=
  { lunch_break_minutes := 30, entries := [(0, { start := some 540 })] }

/-- C9 as stated is false for edit-day: on a well-formed absent date (day 1
of a store holding only day 0) the edit aborts nothing — it reports success
and the store now holds a fresh empty entry for that date. -/
theorem claim_C9_counterexample :
    c9Store.find 1 = none ∧
    (edit_past_day c9Store (.given 1) .blank .blank).2 = .saved ∧
    (edit_past_day c9Store (.given 1) .blank .blank).1.find 1 =
      some emptyEntry ∧
    (edit_past_day c9Store (.given 1) .blank .blank).1 ≠ c9Store := by decide

/-- C9 corrected: delete-day on an absent well-formed date leaves the store
unchanged and reports not-found (no-logs when the store has no date entries
at all); edit-day on an absent date, however, never reports a missing entry:
with a nonempty store it creates and saves an entry for that date, and with
an empty store it aborts with the no-logs message, the store unchanged. -/
theorem claim_C9 (st : Store) (d : Nat) (confirm : Bool)
    (newStart newEnd : TimeInput) (habs : st.find d = none) :
    ((delete_day st (.given d) confirm).1 = st ∧
     (delete_day st (.given d) confirm).2 =
       (if st.entries = [] then .noLogs else .notFound)) ∧
    (if st.entries = [] then
       edit_past_day st (.given d) newStart newEnd = (st, .noLogs)
     else
       (edit_past_day st (.given d) newStart newEnd).2 = .saved ∧
       ((edit_past_day st (.given d) newStart newEnd).1.find d).isSome = true) := by
  by_cases hnil : st.entries = []
  · refine ⟨⟨?_, ?_⟩, ?_⟩
    · simp [delete_day, hnil]
    · simp [delete_day, hnil]
    · simp [edit_past_day, hnil]
  · refine ⟨⟨?_, ?_⟩, ?_⟩
    · simp [delete_day, hnil, habs]
    · simp [delete_day, hnil, habs]
    · rw [if_neg hnil]
      constructor
      · simp [edit_past_day, hnil]
      · simp only [edit_past_day, if_neg hnil]
        rw [Store.find_setEntry, if_pos rfl]
        rfl

/-- Witness for C9's amendment: day 5 is absent from `c9Store`; deleting it
changes nothing and reports not-found, editing it reports success and an
entry for day 5 exists afterwards. -/
theorem claim_C9_witness :
    ((delete_day c9Store (.given 5) true).1 = c9Store ∧
     (delete_day c9Store (.given 5) true).2 = .notFound) ∧
    ((edit_past_day c9Store (.given 5) .blank .blank).2 = .saved ∧
     ((edit_past_day c9Store (.given 5) .blank .blank).1.find 5).isSome = true) := by
  have h := claim_C9 c9Store 5 true .blank .blank rfl
  refine ⟨⟨h.1.1, h.1.2.trans (by decide)⟩, ?_⟩
  have h2 := h.2
  rw [if_neg (by decide : ¬ c9Store.entries = [])] at h2
  exact h2

/-- The store reached by: log start 08:00 on a Tuesday, log end 16:00
(stores 7.5 h / 450 min under the 30-minute lunch), then re-log the start as
09:00 — the code leaves the derived fields untouched, so they are stale. -/
def c10Store : Store :=
  (log_start (log_end (log_start initialStore 1 480 (.given 480)).1
    1 960 (.given 960)).1 1 540 (.given 540)).1

/-- C10 as stated is false: editing the stale day of `c10Store` with both
prompts left empty reports success but changes the entry — the recompute from
the current stamps 09:00–16:00 replaces the stale 7.5 h / 450 min with
6.5 h / 390 min. -/
theorem claim_C10_counterexample :
    c10Store.find 1 =
      some { start := some 540, endT := some 960,
             hours_worked := some (15 / 2), total_minutes := some 450 } ∧
    (edit_past_day c10Store (.given 1) .blank .blank).2 = .saved ∧
    (edit_past_day c10Store (.given 1) .blank .blank).1.find 1 =
      some { start := some 540, endT := some 960,
             hours_worked := some (13 / 2), total_minutes := some 390 } ∧
    (edit_past_day c10Store (.given 1) .blank .blank).1 ≠ c10Store := by
  have h1 : c10Store.find 1 =
      some { start := some 540, endT := some 960,
             hours_worked := some (compute_worked 480 960 30).1,
             total_minutes := some (compute_worked 480 960 30).2 } := rfl
  have h2 : (edit_past_day c10Store (.given 1) .blank .blank).1.find 1 =
      some { start := some 540, endT := some 960,
             hours_worked := some (compute_worked 540 960 30).1,
             total_minutes := some (compute_worked 540 960 30).2 } := rfl
  have hq1 : (compute_worked 480 960 30).1 = 15 / 2 := by
    norm_num [compute_worked, round2]
  have hq2 : (compute_worked 540 960 30).1 = 13 / 2 := by
    norm_num [compute_worked, round2]
  have hi1 : (compute_worked 480 960 30).2 = 450 := rfl
  have hi2 : (compute_worked 540 960 30).2 = 390 := rfl
  refine ⟨?_, rfl, ?_, ?_⟩
  · rw [h1, hq1, hi1]
  · rw [h2, hq2, hi2]
  · intro hEq
    have hfe : (edit_past_day c10Store (.given 1) .blank .blank).1.find 1 =
        c10Store.find 1 := by rw [hEq]
    rw [h1, h2] at hfe
    have hw := congrArg (fun o => Option.map DayEntry.total_minutes o) hfe
    exact absurd hw (by decide)

/-- C10 corrected: an edit with both prompts empty always saves and leaves
`start`, `end` and every other date unchanged, but when both stamps are
present it recomputes the derived fields with the current lunch setting; the
entry — and hence the store — is fully unchanged exactly when its derived
fields already equal that recomputation, which the stale-entry counterexample
shows is not every reachable entry. -/
theorem claim_C10 (st : Store) (d : Nat) (e : DayEntry)
    (hfind : st.find d = some e) :
    (edit_past_day st (.given d) .blank .blank).2 = .saved ∧
    (edit_past_day st (.given d) .blank .blank).1 =
      st.setEntry d (recalcEntry st.lunch_break_minutes e) ∧
    (∀ d' : Nat, d' ≠ d →
      (edit_past_day st (.given d) .blank .blank).1.find d' = st.find d') ∧
    (recalcEntry st.lunch_break_minutes e = e →
      (edit_past_day st (.given d) .blank .blank).1 = st) := by
  have hnil : st.entries ≠ [] := findPairs_isSome_ne_nil st.entries d e hfind
  have hmain : edit_past_day st (.given d) .blank .blank =
      (st.setEntry d (recalcEntry st.lunch_break_minutes e), .saved) := by
    cases hs : e.start with
    | none =>
      simp only [edit_past_day, if_neg hnil, hfind, Option.getD_some,
        recalcEntry, hs]
    | some s =>
      cases ht : e.endT with
      | none =>
        simp only [edit_past_day, if_neg hnil, hfind, Option.getD_some,
          recalcEntry, hs, ht]
      | some t =>
        simp only [edit_past_day, if_neg hnil, hfind, Option.getD_some,
          recalcEntry, hs, ht]
  refine ⟨by rw [hmain], by rw [hmain], ?_, ?_⟩
  · intro d' hd'
    rw [hmain]
    exact (Store.find_setEntry st d _ d').trans (if_neg hd')
  · intro hre
    rw [hmain]
    show st.setEntry d (recalcEntry st.lunch_break_minutes e) = st
    rw [hre]
    exact Store.setEntry_self st d e hfind

def c10CurrentStore : Store :=
  { lunch_break_minutes := 30,
    entries := [(0, { start := some 480, endT := some 960,
                      hours_worked := some (compute_worked 480 960 30).1,
                      total_minutes := some (compute_worked 480 960 30).2 })] }

/-- Witness for C10's amendment: on an entry whose derived fields already
match the recomputation, the empty-prompt edit reports success and the store
is unchanged. -/
theorem claim_C10_witness :
    (edit_past_day c10CurrentStore (.given 0) .blank .blank).2 = .saved ∧
    (edit_past_day c10CurrentStore (.given 0) .blank .blank).1 =
      c10CurrentStore := by
  have h := claim_C10 c10CurrentStore 0
    { start := some 480, endT := some 960,
      hours_worked := some (compute_worked 480 960 30).1,
      total_minutes := some (compute_worked 480 960 30).2 } rfl
  exact ⟨h.1, h.2.2.2 rfl⟩

end Timelogger
